import Mathlib

/-!
Verification of the second-order-effects trading engine.

Shallow embedding of the core of the `quantconnect-mcp` second-order
trading system, translated from `second_order_ai.py` (Signal Generator)
and `second_order_algo.py` (Event Detector, graph fallback, Position
Lifecycle Manager), together with proofs of the specification's claims
about them.

Real-valued quantities of the source (prices, returns, confidences,
magnitudes) are modelled as exact rationals `ℚ`; timestamps are modelled
as natural numbers (days for the algorithm's clock, seconds for the
response cache).
-/

namespace SecondOrder

/-! ## Data model (`second_order_ai.py`)

An `AffectedEntity` mirrors the per-entity JSON record consumed by
`generate_trade_signals`; a `TradeSignal` mirrors the signal dict it
produces.  String-valued enumerations of the source (`'BUY'`,
`'positive'`, `'competitor'`, ...) are kept as strings. -/

structure AffectedEntity where
  ticker : String
  relationship : String
  impact_direction : String
  impact_magnitude : ℚ
  confidence : ℚ
  time_lag_days : ℚ
  rationale : String
deriving DecidableEq, Repr

structure TradeSignal where
  ticker : String
  action : String
  strategy : String
  size_multiplier : ℚ
  time_horizon : ℚ
  stop_loss : ℚ
  take_profit : ℚ
  rationale : String
deriving DecidableEq, Repr

/-- `SecondOrderAI._determine_strategy` (`second_order_ai.py:150-160`):
the top-to-bottom strategy decision table. -/
def determine_strategy (e : AffectedEntity) : String :=
  if 0.8 < e.confidence ∧ e.time_lag_days < 5 then "DIRECT_EQUITY"
  else if 0.7 < e.confidence ∧ e.time_lag_days < 10 then "OPTIONS_DIRECTIONAL"
  else if e.relationship = "competitor" ∨ e.relationship = "inverse" then "PAIRS_TRADE"
  else "OPTIONS_SPREAD"

/-- The signal dict built inside the loop of `generate_trade_signals`
(`second_order_ai.py:136-145`) for an entity that passed the confidence
threshold. -/
def mkSignal (e : AffectedEntity) : TradeSignal :=
  { ticker := e.ticker
    action := if e.impact_direction = "positive" then "BUY" else "SELL"
    strategy := determine_strategy e
    size_multiplier := e.confidence * e.impact_magnitude
    time_horizon := e.time_lag_days
    stop_loss := if 0.8 < e.confidence then 0.05 else 0.03
    take_profit := if 0.7 < e.impact_magnitude then 0.1 else 0.07
    rationale := e.rationale }

/-- The `signals` list accumulated by the nested loops of
`generate_trade_signals` (`second_order_ai.py:131-146`): every entity of
every category whose `confidence > 0.6`, in category-then-entity order.
A `second_order_map` is the JSON object `category ↦ entity list`,
modelled as an association list in insertion order. -/
def signalCandidates (m : List (String × List AffectedEntity)) : List TradeSignal :=
  m.foldl (fun acc p =>
    acc ++ (p.2.filter (fun e => decide ((0.6 : ℚ) < e.confidence))).map mkSignal) []

/-- One step of a stable descending insertion sort on `size_multiplier`:
`x` is placed before the first element it strictly beats, so elements
with equal key keep their relative order.  This is the behaviour of
Python's stable `sorted(..., key=size_multiplier, reverse=True)` at
`second_order_ai.py:148`. -/
def insertDesc (x : TradeSignal) : List TradeSignal → List TradeSignal
  | [] => [x]
  | y :: ys =>
    if y.size_multiplier < x.size_multiplier then x :: y :: ys
    else y :: insertDesc x ys

/-- Stable descending sort by `size_multiplier` (extensionally equal to
Python's stable `sorted` with `reverse=True`). -/
def sortDesc (l : List TradeSignal) : List TradeSignal :=
  l.foldl (fun acc x => insertDesc x acc) []

/-- `SecondOrderAI.generate_trade_signals` (`second_order_ai.py:128-148`):
filter by confidence, rank by descending `size_multiplier`, keep the
top 10. -/
def generate_trade_signals (m : List (String × List AffectedEntity)) : List TradeSignal :=
  (sortDesc (signalCandidates m)).take 10

/-! ## Algorithm state (`second_order_algo.py`)

`AlgoState` models the mutable state of `SecondOrderEffectsAlgorithm`
that the claims are about: the set of invested tickers of the whole
portfolio (`self.Portfolio`, i.e. every holding with `Invested`, not
only second-order ones), the `self.second_order_positions` dict
(insertion-ordered association list), and the orders placed so far.
The execution venue's fill quantity and current price are inputs, since
they are produced by the brokerage collaborator.  The algorithm's clock
`self.Time` is modelled in days. -/

structure PosInfo where
  entry_time : ℕ
  direction : String
  reason : String
  confidence : ℚ
deriving DecidableEq, Repr

/-- The venue order types the claims mention.  The source only ever
places `StopMarketOrder`s; `limitTarget` stands for the take-profit
(limit/target) order type of the venue, which the source never uses. -/
inductive OrderKind where
  | stopMarket
  | limitTarget
deriving DecidableEq, Repr

structure Order where
  kind : OrderKind
  symbol : String
  quantity : ℚ
  price : ℚ
deriving DecidableEq, Repr

structure AlgoState where
  invested : List String
  second_order_positions : List (String × PosInfo)
  orders : List Order
deriving DecidableEq, Repr

/-- Python dict assignment `d[k] = v`: replace in place when the key
exists, else append. -/
def updatePos : List (String × PosInfo) → String → PosInfo → List (String × PosInfo)
  | [], sym, info => [(sym, info)]
  | p :: ps, sym, info =>
    if p.1 = sym then (sym, info) :: ps else p :: updatePos ps sym info

/-- `ExecuteSecondOrderTrade` (`second_order_algo.py:167-206`).
Order of guards as in the source: skip if the ticker is already
invested anywhere in the portfolio, then skip if the whole-portfolio
invested count has reached `max_positions = 10`.  A LONG places a stop
market order at `0.95 × price`, a SHORT at `1.05 × price`; `fillQty`
is `Portfolio[symbol].Quantity` after `SetHoldings`, supplied by the
venue.  The tracking dict is updated regardless of direction. -/
def executeSecondOrderTrade (s : AlgoState) (symbol direction reason : String)
    (confidence : ℚ) (price fillQty : ℚ) (now : ℕ) : AlgoState :=
  if symbol ∈ s.invested then s
  else if 10 ≤ s.invested.length then s
  else
    let info : PosInfo := ⟨now, direction, reason, confidence⟩
    if direction = "LONG" then
      { invested := symbol :: s.invested
        second_order_positions := updatePos s.second_order_positions symbol info
        orders := s.orders ++ [⟨OrderKind.stopMarket, symbol, -fillQty, price * 0.95⟩] }
    else if direction = "SHORT" then
      { invested := symbol :: s.invested
        second_order_positions := updatePos s.second_order_positions symbol info
        orders := s.orders ++ [⟨OrderKind.stopMarket, symbol, fillQty, price * 1.05⟩] }
    else
      { s with second_order_positions := updatePos s.second_order_positions symbol info }

/-- Closing one symbol inside the second loop of `OnEndOfDay`
(`second_order_algo.py:261-265`): only when the portfolio still shows
the symbol as invested is it liquidated and removed from the tracking
dict; otherwise nothing at all happens. -/
def closeOne (s : AlgoState) (sym : String) : AlgoState :=
  if sym ∈ s.invested then
    { s with invested := s.invested.filter (fun t => t ≠ sym)
             second_order_positions := s.second_order_positions.filter (fun p => p.1 ≠ sym) }
  else s

/-- `OnEndOfDay` (`second_order_algo.py:247-265`): collect the tracked
positions whose holding period `(Time - entry_time).days` exceeds 5,
then close them. -/
def onEndOfDay (s : AlgoState) (now : ℕ) : AlgoState :=
  let positions_to_close :=
    (s.second_order_positions.filter (fun p => decide (5 < now - p.2.entry_time))).map (·.1)
  positions_to_close.foldl closeOne s

/-- `chain.get(category, [])` on a supply-chain entry
(`second_order_algo.py:127,137,148,158`). -/
def getCat (chain : List (String × List String)) (category : String) : List String :=
  (chain.lookup category).getD []

/-- `TriggerSecondOrderTrades` (`second_order_algo.py:116-165`): the
graph-only path run when a primary move is detected.  `graph` is
`self.supply_chains` (configurable relationship-graph contents), `data`
the set of tickers present in the current slice, `price`/`fillQty` the
venue's per-symbol price and fill quantity. -/
def triggerSecondOrderTrades (graph : List (String × List (String × List String)))
    (s : AlgoState) (primary_symbol : String) (primary_move : ℚ)
    (data : List String) (price fillQty : String → ℚ) (now : ℕ) : AlgoState :=
  match graph.lookup primary_symbol with
  | none => s
  | some chain =>
    if 0 < primary_move then
      let s1 := (getCat chain "suppliers").foldl (fun st sup =>
        if sup ∈ data then
          executeSecondOrderTrade st sup "LONG" (primary_symbol ++ " rally benefits supplier")
            0.7 (price sup) (fillQty sup) now
        else st) s
      (getCat chain "competitors").foldl (fun st comp =>
        if comp ∈ data then
          executeSecondOrderTrade st comp "SHORT" (primary_symbol ++ " rally hurts competitor")
            0.5 (price comp) (fillQty comp) now
        else st) s1
    else
      let s1 := (getCat chain "suppliers").foldl (fun st sup =>
        if sup ∈ data then
          executeSecondOrderTrade st sup "SHORT" (primary_symbol ++ " decline hurts supplier")
            0.6 (price sup) (fillQty sup) now
        else st) s
      (getCat chain "competitors").foldl (fun st comp =>
        if comp ∈ data then
          executeSecondOrderTrade st comp "LONG" (primary_symbol ++ " decline helps competitor")
            0.4 (price comp) (fillQty comp) now
        else st) s1

/-! ## Event detection (`second_order_algo.py:74-114`) -/

inductive EventKind where
  | intraday
  | multiDay
deriving DecidableEq, Repr

/-- The intraday rule of `OnData` (`second_order_algo.py:74-90`): the
primary movers present in the data slice whose
`Holdings.UnrealizedProfitPercent` exceeds 5% in absolute value.
`data` maps each ticker present in the slice to that return. -/
def intradayFired (movers : List String) (data : List (String × ℚ)) : List String :=
  movers.filter (fun sym =>
    match data.lookup sym with
    | some r => decide ((0.05 : ℚ) < |r|)
    | none => false)

/-- The per-ticker body of `DetectSecondOrderEffects`
(`second_order_algo.py:102-114`): five-day simple return
`close[-1]/close[0] - 1` from the daily history, firing when its
absolute value exceeds 10%.  An empty history or a zero first close
(`ZeroDivisionError`, swallowed by the bare `except`) skips the
ticker. -/
def fiveDayQualifies (closes : List ℚ) : Bool :=
  match closes with
  | [] => false
  | c0 :: _ =>
    match closes.getLast? with
    | none => false
    | some clast => if c0 = 0 then false else decide ((0.10 : ℚ) < |clast / c0 - 1|)

/-- The multi-day rule of `DetectSecondOrderEffects`
(`second_order_algo.py:92-114`): if the whole history frame is empty
the scan returns immediately; otherwise each primary mover with a
qualifying five-day return fires. -/
def multiDayFired (movers : List String) (hist : String → List ℚ) : List String :=
  if movers.all (fun t => (hist t).isEmpty) then []
  else movers.filter (fun sym => fiveDayQualifies (hist sym))

/-- All primary events fired for one evaluation cycle (one trading day):
the intraday events of the data callback and the multi-day events of
the scheduled 9:45 scan.  The source has no interaction between the two
paths. -/
def cycleEvents (movers : List String) (data : List (String × ℚ))
    (hist : String → List ℚ) : List (String × EventKind) :=
  (intradayFired movers data).map (fun t => (t, EventKind.intraday)) ++
    (multiDayFired movers hist).map (fun t => (t, EventKind.multiDay))

/-! ## Response cache (`second_order_ai.py:162-229`)

Both `_query_perplexity` and `_query_claude` guard the external call
with the same cache logic; `queryWithCache` models it.  Timestamps are
in whole seconds.  The source's freshness test is
`(datetime.now() - cached.timestamp).seconds < 300`: for a nonnegative
age, `timedelta.seconds` is the age modulo 86400 (it drops whole days),
which the embedding reproduces.  `freshResponse` is the response the
external call would return if made. -/

structure CacheEntry where
  response : String
  timestamp : ℕ
deriving DecidableEq, Repr

/-- Python dict assignment for the cache. -/
def updateCache : List (String × CacheEntry) → String → CacheEntry →
    List (String × CacheEntry)
  | [], key, e => [(key, e)]
  | p :: ps, key, e =>
    if p.1 = key then (key, e) :: ps else p :: updateCache ps key e

/-- The cache-then-call skeleton shared by `_query_perplexity`
(`second_order_ai.py:162-194`) and `_query_claude`
(`second_order_ai.py:196-229`).  Returns the response served and the
cache afterwards; the served response differs from `freshResponse`
exactly when no external call was made. -/
def queryWithCache (cache : List (String × CacheEntry)) (key : String) (now : ℕ)
    (freshResponse : String) : String × List (String × CacheEntry) :=
  match cache.lookup key with
  | some e =>
    if (now - e.timestamp) % 86400 < 300 then (e.response, cache)
    else (freshResponse, updateCache cache key ⟨freshResponse, now⟩)
  | none => (freshResponse, updateCache cache key ⟨freshResponse, now⟩)

/-! ## Auxiliary definitions for stating the claims -/

/-- One call to `ExecuteSecondOrderTrade` with its venue inputs, used to
state invariants over arbitrary call sequences. -/
structure TradeCall where
  symbol : String
  direction : String
  reason : String
  confidence : ℚ
  price : ℚ
  fillQty : ℚ
  now : ℕ
deriving DecidableEq, Repr

def applyCall (s : AlgoState) (c : TradeCall) : AlgoState :=
  executeSecondOrderTrade s c.symbol c.direction c.reason c.confidence c.price c.fillQty c.now

/-- All entities of a `second_order_map`, in category-then-entity order. -/
def allEntities : List (String × List AffectedEntity) → List AffectedEntity
  | [] => []
  | p :: m => p.2 ++ allEntities m

/-! ## Concrete inputs used by scenarios, counterexamples and witnesses -/

/-- The §8 scenario entity: ticker C, positive, magnitude 0.9,
confidence 0.85, lag 2. -/
def entityC : AffectedEntity := ⟨"C", "supplier", "positive", 0.9, 0.85, 2, "r"⟩

/-- Ticker T appearing under two categories, both above the confidence
threshold; the second has the higher confidence × magnitude product. -/
def dupE1 : AffectedEntity := ⟨"T", "supplier", "positive", 0.5, 0.7, 3, "a"⟩

def dupE2 : AffectedEntity := ⟨"T", "competitor", "negative", 0.9, 0.8, 1, "b"⟩

/-- A state holding one second-order position on ticker A entered at
day 0 and still invested. -/
def c2State : AlgoState := ⟨["A"], [("A", ⟨0, "LONG", "r", 0.7⟩)], []⟩

/-- The §8 fallback scenario graph: primary X with supplier A
(weight 0.7 in the spec) and competitor B (weight 0.5). -/
def c4Graph : List (String × List (String × List String)) :=
  [("X", [("suppliers", ["A"]), ("competitors", ["B"])])]

/-- Running the graph-only path on the §8 scenario: X up 6%, both
related tickers present in the slice, empty portfolio. -/
def c4Result : AlgoState :=
  triggerSecondOrderTrades c4Graph ⟨[], [], []⟩ "X" 0.06 ["A", "B"]
    (fun _ => 100) (fun _ => 10) 0

/-- Daily-close history where AAPL gained 12% over the 5-day window. -/
def histC5 : String → List ℚ :=
  fun t => if t = "AAPL" then [100, 103, 106, 109, 112] else []

/-- A response cache holding one entry written at second 0. -/
def c6Cache : List (String × CacheEntry) := [("claude_k", ⟨"stale", 0⟩)]

/-- A portfolio already holding ten (non-second-order) invested
tickers and tracking no second-order position. -/
def fullPortfolio : AlgoState :=
  ⟨["P1", "P2", "P3", "P4", "P5", "P6", "P7", "P8", "P9", "P10"], [], []⟩

/-! ## Lemmas about the stable descending sort -/

theorem mem_insertDesc {x a : TradeSignal} {l : List TradeSignal} :
    a ∈ insertDesc x l ↔ a = x ∨ a ∈ l := by
  induction l with
  | nil => simp [insertDesc]
  | cons y ys ih =>
    by_cases h : y.size_multiplier < x.size_multiplier
    · simp only [insertDesc, if_pos h, List.mem_cons]
    · simp only [insertDesc, if_neg h, List.mem_cons, ih]
      tauto

theorem pairwise_insertDesc {x : TradeSignal} {l : List TradeSignal}
    (h : l.Pairwise (fun a b => b.size_multiplier ≤ a.size_multiplier)) :
    (insertDesc x l).Pairwise (fun a b => b.size_multiplier ≤ a.size_multiplier) := by
  induction l with
  | nil => simp [insertDesc]
  | cons y ys ih =>
    rcases List.pairwise_cons.mp h with ⟨hy, hys⟩
    by_cases hlt : y.size_multiplier < x.size_multiplier
    · rw [insertDesc, if_pos hlt]
      refine List.pairwise_cons.mpr ⟨?_, h⟩
      intro z hz
      rcases List.mem_cons.mp hz with rfl | hz
      · exact le_of_lt hlt
      · exact le_trans (hy z hz) (le_of_lt hlt)
    · rw [insertDesc, if_neg hlt]
      refine List.pairwise_cons.mpr ⟨?_, ih hys⟩
      intro z hz
      rcases mem_insertDesc.mp hz with rfl | hz
      · exact le_of_not_lt hlt
      · exact hy z hz

theorem pairwise_foldl_insertDesc (l acc : List TradeSignal)
    (h : acc.Pairwise (fun a b => b.size_multiplier ≤ a.size_multiplier)) :
    (l.foldl (fun a x => insertDesc x a) acc).Pairwise
      (fun a b => b.size_multiplier ≤ a.size_multiplier) := by
  induction l generalizing acc with
  | nil => exact h
  | cons x xs ih => exact ih _ (pairwise_insertDesc h)

theorem pairwise_sortDesc (l : List TradeSignal) :
    (sortDesc l).Pairwise (fun a b => b.size_multiplier ≤ a.size_multiplier) :=
  pairwise_foldl_insertDesc l [] (by simp)

theorem filter_insertDesc (q : ℚ) (x : TradeSignal) (l : List TradeSignal)
    (h : l.Pairwise (fun a b => b.size_multiplier ≤ a.size_multiplier)) :
    (insertDesc x l).filter (fun s => decide (s.size_multiplier = q)) =
      l.filter (fun s => decide (s.size_multiplier = q)) ++
        (if x.size_multiplier = q then [x] else []) := by
  induction l with
  | nil => by_cases hxq : x.size_multiplier = q <;> simp [insertDesc, hxq]
  | cons y ys ih =>
    rcases List.pairwise_cons.mp h with ⟨hy, hys⟩
    by_cases hlt : y.size_multiplier < x.size_multiplier
    · rw [insertDesc, if_pos hlt]
      by_cases hxq : x.size_multiplier = q
      · have hnil : (y :: ys).filter (fun s => decide (s.size_multiplier = q)) = [] := by
          refine List.filter_eq_nil_iff.mpr ?_
          intro z hz
          have hzq : z.size_multiplier < q := by
            rcases List.mem_cons.mp hz with rfl | hz
            · exact hxq ▸ hlt
            · exact lt_of_le_of_lt (hy z hz) (hxq ▸ hlt)
          simpa using ne_of_lt hzq
        rw [List.filter_cons_of_pos (by simpa using hxq), hnil]
        simp [hxq]
      · rw [List.filter_cons_of_neg (by simpa using hxq)]
        simp [hxq]
    · rw [insertDesc, if_neg hlt]
      by_cases hyq : y.size_multiplier = q
      · rw [List.filter_cons_of_pos (by simpa using hyq), ih hys,
          List.filter_cons_of_pos (by simpa using hyq)]
        simp
      · rw [List.filter_cons_of_neg (by simpa using hyq), ih hys,
          List.filter_cons_of_neg (by simpa using hyq)]

theorem filter_foldl_insertDesc (q : ℚ) (l acc : List TradeSignal)
    (h : acc.Pairwise (fun a b => b.size_multiplier ≤ a.size_multiplier)) :
    (l.foldl (fun a x => insertDesc x a) acc).filter (fun s => decide (s.size_multiplier = q)) =
      acc.filter (fun s => decide (s.size_multiplier = q)) ++
        l.filter (fun s => decide (s.size_multiplier = q)) := by
  induction l generalizing acc with
  | nil => simp
  | cons x xs ih =>
    rw [List.foldl_cons, ih _ (pairwise_insertDesc h), filter_insertDesc q x acc h]
    by_cases hxq : x.size_multiplier = q
    · rw [List.filter_cons_of_pos (by simpa using hxq)]
      simp [hxq]
    · rw [List.filter_cons_of_neg (by simpa using hxq)]
      simp [hxq]

theorem filter_sortDesc (q : ℚ) (l : List TradeSignal) :
    (sortDesc l).filter (fun s => decide (s.size_multiplier = q)) =
      l.filter (fun s => decide (s.size_multiplier = q)) := by
  simpa using filter_foldl_insertDesc q l [] (by simp)

theorem countP_insertDesc (p : TradeSignal → Bool) (x : TradeSignal) (l : List TradeSignal) :
    (insertDesc x l).countP p = (if p x then 1 else 0) + l.countP p := by
  induction l with
  | nil => by_cases hx : p x <;> simp [insertDesc, hx, List.countP_cons]
  | cons y ys ih =>
    by_cases hlt : y.size_multiplier < x.size_multiplier
    · rw [insertDesc, if_pos hlt]
      simp only [List.countP_cons]
      omega
    · rw [insertDesc, if_neg hlt]
      simp only [List.countP_cons, ih]
      omega

theorem countP_foldl_insertDesc (p : TradeSignal → Bool) (l acc : List TradeSignal) :
    (l.foldl (fun a x => insertDesc x a) acc).countP p = acc.countP p + l.countP p := by
  induction l generalizing acc with
  | nil => simp
  | cons x xs ih =>
    rw [List.foldl_cons, ih, countP_insertDesc, List.countP_cons]
    omega

theorem countP_sortDesc (p : TradeSignal → Bool) (l : List TradeSignal) :
    (sortDesc l).countP p = l.countP p := by
  simpa using countP_foldl_insertDesc p l []

/-! ## Lemmas about the candidate list -/

theorem foldl_append_init (h : String × List AffectedEntity → List TradeSignal)
    (m : List (String × List AffectedEntity)) (acc : List TradeSignal) :
    m.foldl (fun a p => a ++ h p) acc = acc ++ m.foldl (fun a p => a ++ h p) [] := by
  induction m generalizing acc with
  | nil => simp
  | cons p ps ih =>
    simp only [List.foldl_cons, List.nil_append]
    rw [ih (acc ++ h p), ih (h p), List.append_assoc]

theorem signalCandidates_cons (p : String × List AffectedEntity)
    (m : List (String × List AffectedEntity)) :
    signalCandidates (p :: m) =
      (p.2.filter (fun e => decide ((0.6 : ℚ) < e.confidence))).map mkSignal ++
        signalCandidates m := by
  rw [signalCandidates, List.foldl_cons, foldl_append_init]
  simp [signalCandidates]

theorem ticker_mkSignal (e : AffectedEntity) : (mkSignal e).ticker = e.ticker := rfl

theorem countP_candidates_category (t : String) (es : List AffectedEntity) :
    ((es.filter (fun e => decide ((0.6 : ℚ) < e.confidence))).map mkSignal).countP
        (fun s => s.ticker == t) =
      es.countP (fun e => e.ticker == t && decide ((0.6 : ℚ) < e.confidence)) := by
  induction es with
  | nil => rfl
  | cons e es ih =>
    by_cases hc : (0.6 : ℚ) < e.confidence
    · rw [List.filter_cons_of_pos (by simpa using hc), List.map_cons, List.countP_cons,
        List.countP_cons, ih]
      simp [ticker_mkSignal, hc]
    · rw [List.filter_cons_of_neg (by simpa using hc), List.countP_cons, ih]
      simp [hc]

theorem countP_signalCandidates (t : String) (m : List (String × List AffectedEntity)) :
    (signalCandidates m).countP (fun s => s.ticker == t) =
      (allEntities m).countP (fun e => e.ticker == t && decide ((0.6 : ℚ) < e.confidence)) := by
  induction m with
  | nil => rfl
  | cons p ps ih =>
    rw [signalCandidates_cons, List.countP_append, allEntities, List.countP_append,
      countP_candidates_category, ih]

theorem filter_take_leading (p : TradeSignal → Bool) (l : List TradeSignal) (n : ℕ) :
    (l.take n).filter p <+: l.filter p :=
  ⟨(l.drop n).filter p, by rw [← List.filter_append, List.take_append_drop]⟩

/-! ## Lemmas about the position lifecycle -/

theorem closeOne_not_mem_self (s : AlgoState) (sym : String) :
    sym ∉ (closeOne s sym).invested := by
  rw [closeOne]
  by_cases h : sym ∈ s.invested
  · rw [if_pos h]
    simp
  · rw [if_neg h]
    exact h

theorem closeOne_not_mem_mono (s : AlgoState) (sym t : String)
    (h : sym ∉ s.invested) : sym ∉ (closeOne s t).invested := by
  rw [closeOne]
  by_cases ht : t ∈ s.invested
  · rw [if_pos ht]
    intro hmem
    exact h (List.mem_of_mem_filter hmem)
  · rw [if_neg ht]
    exact h

theorem foldl_closeOne_not_mem_mono (l : List String) (s : AlgoState) (sym : String)
    (h : sym ∉ s.invested) : sym ∉ (l.foldl closeOne s).invested := by
  induction l generalizing s with
  | nil => exact h
  | cons a as ih => exact ih _ (closeOne_not_mem_mono s sym a h)

theorem foldl_closeOne_not_mem (l : List String) (s : AlgoState) (sym : String)
    (h : sym ∈ l) : sym ∉ (l.foldl closeOne s).invested := by
  induction l generalizing s with
  | nil => cases h
  | cons a as ih =>
    rcases List.mem_cons.mp h with rfl | h
    · exact foldl_closeOne_not_mem_mono as (closeOne s sym) sym (closeOne_not_mem_self s sym)
    · exact ih _ h

theorem closeOne_noop (s : AlgoState) (t : String) (h : t ∉ s.invested) :
    closeOne s t = s := by
  rw [closeOne, if_neg h]

/-! ## Lemmas about `executeSecondOrderTrade` -/

theorem execute_noop_mem (s : AlgoState) (sym d r : String) (conf p q : ℚ) (n : ℕ)
    (h : sym ∈ s.invested) : executeSecondOrderTrade s sym d r conf p q n = s := by
  rw [executeSecondOrderTrade, if_pos h]

theorem execute_noop_cap (s : AlgoState) (sym d r : String) (conf p q : ℚ) (n : ℕ)
    (h : 10 ≤ s.invested.length) : executeSecondOrderTrade s sym d r conf p q n = s := by
  by_cases hm : sym ∈ s.invested
  · rw [executeSecondOrderTrade, if_pos hm]
  · rw [executeSecondOrderTrade, if_neg hm, if_pos h]

theorem execute_invested_length (s : AlgoState) (sym d r : String) (conf p q : ℚ) (n : ℕ)
    (h : s.invested.length ≤ 10) :
    (executeSecondOrderTrade s sym d r conf p q n).invested.length ≤ 10 := by
  by_cases hm : sym ∈ s.invested
  · rw [execute_noop_mem s sym d r conf p q n hm]
    exact h
  · by_cases hc : 10 ≤ s.invested.length
    · rw [execute_noop_cap s sym d r conf p q n hc]
      exact h
    · by_cases hl : d = "LONG"
      · simp [executeSecondOrderTrade, hm, hc, hl]
        omega
      · by_cases hs : d = "SHORT"
        · simp [executeSecondOrderTrade, hm, hc, hl, hs]
          omega
        · simp [executeSecondOrderTrade, hm, hc, hl, hs]
          exact h

theorem foldl_applyCall_length (calls : List TradeCall) (s : AlgoState)
    (h : s.invested.length ≤ 10) :
    ((calls.foldl applyCall s).invested.length ≤ 10) := by
  induction calls generalizing s with
  | nil => exact h
  | cons c cs ih =>
    exact ih _ (execute_invested_length s c.symbol c.direction c.reason c.confidence
      c.price c.fillQty c.now h)

/-! ## The claims -/

/-- Claim C1, counterexample: with ticker T appearing under two
categories, both above the confidence threshold, the Signal Generator's
output contains two signals for T — the claimed deduplication by ticker
does not happen. -/
theorem C1_counterexample :
    ¬ ((generate_trade_signals [("c1", [dupE1]), ("c2", [dupE2])]).countP
        (fun s => s.ticker == "T") ≤ 1) := by
  norm_num [generate_trade_signals, sortDesc, signalCandidates, insertDesc, mkSignal,
    determine_strategy, dupE1, dupE2, List.countP_cons]

/-- Claim C1 (amended): the Signal Generator performs no deduplication
by ticker.  For every ticker, the ranked signal list (before the top-10
cap) contains exactly one signal for each input entity with that ticker
and confidence above 0.6, so a ticker appearing under several
categories contributes several signals and no record is discarded in
favour of a higher confidence × magnitude one. -/
theorem C1_no_dedup (m : List (String × List AffectedEntity)) (t : String) :
    (sortDesc (signalCandidates m)).countP (fun s => s.ticker == t) =
      (allEntities m).countP
        (fun e => e.ticker == t && decide ((0.6 : ℚ) < e.confidence)) := by
  rw [countP_sortDesc, countP_signalCandidates]

/-- Claim C2, counterexample: a position opened at day 0 is still open
after the end-of-day sweep of day 5 — the sweep leaves the state
untouched, so the position is not closed by day D+5. -/
theorem C2_counterexample :
    onEndOfDay c2State 5 = c2State ∧ "A" ∈ (onEndOfDay c2State 5).invested := by
  refine ⟨rfl, ?_⟩
  rw [show onEndOfDay c2State 5 = c2State from rfl]
  decide

/-- Claim C2 (amended): a second-order position opened at day D is
closed by the first end-of-day sweep run strictly after day D+5 (that
is, by day D+6) if no stop fires first, and closing an already-closed
(no longer invested) position is a no-op. -/
theorem C2_holding_period (s : AlgoState) (sym : String) (info : PosInfo) (now : ℕ)
    (hmem : (sym, info) ∈ s.second_order_positions) (hday : info.entry_time + 5 < now) :
    sym ∉ (onEndOfDay s now).invested ∧
      ∀ (s' : AlgoState) (t : String), t ∉ s'.invested → closeOne s' t = s' := by
  constructor
  · simp only [onEndOfDay]
    apply foldl_closeOne_not_mem
    refine List.mem_map.mpr ⟨(sym, info), List.mem_filter.mpr ⟨hmem, ?_⟩, rfl⟩
    simp only [decide_eq_true_eq]
    omega
  · exact fun s' t h => closeOne_noop s' t h

/-- Claim C2 witness: the day-0 position on A is gone after the sweep
of day 6. -/
theorem C2_holding_period_witness :
    "A" ∉ (onEndOfDay c2State 6).invested ∧
      ∀ (s' : AlgoState) (t : String), t ∉ s'.invested → closeOne s' t = s' :=
  C2_holding_period c2State "A" ⟨0, "LONG", "r", 0.7⟩ 6 (by simp [c2State]) (by decide)

/-- Claim C3, counterexample: opening a LONG position on an empty
portfolio places exactly one order — a stop market order at the fixed
level 0.95 × price — and no take-profit/target order at all; the
signal's `stopLossPct`/`takeProfitPct` are never consulted (the
function does not even receive them). -/
theorem C3_counterexample :
    (executeSecondOrderTrade ⟨[], [], []⟩ "A" "LONG" "r" 0.7 100 10 0).orders =
      [⟨OrderKind.stopMarket, "A", -10, 95⟩] := by
  norm_num [executeSecondOrderTrade, updatePos]

/-- Claim C3 (amended): whenever a position is opened, only a
protective stop market order is attached, at a fixed 5% offset from the
current price — 0.95 × price for LONG and 1.05 × price for SHORT (the
offset direction is inverted for shorts) — and no target (take-profit)
order is attached; the signal's `stopLossPct`/`takeProfitPct` play no
role. -/
theorem C3_stop_only (s : AlgoState) (sym reason : String) (conf price fq : ℚ) (n : ℕ)
    (h1 : sym ∉ s.invested) (h2 : s.invested.length < 10) :
    (executeSecondOrderTrade s sym "LONG" reason conf price fq n).orders =
        s.orders ++ [⟨OrderKind.stopMarket, sym, -fq, price * 0.95⟩] ∧
      (executeSecondOrderTrade s sym "SHORT" reason conf price fq n).orders =
        s.orders ++ [⟨OrderKind.stopMarket, sym, fq, price * 1.05⟩] := by
  have h2' : ¬ (10 ≤ s.invested.length) := by omega
  constructor
  · simp [executeSecondOrderTrade, h1, h2']
  · simp [executeSecondOrderTrade, h1, h2']

/-- Claim C3 witness: the LONG and SHORT stop orders placed on an empty
portfolio at price 200 and fill quantity 5. -/
theorem C3_stop_only_witness :
    (executeSecondOrderTrade ⟨[], [], []⟩ "B" "LONG" "r" 0.7 200 5 0).orders =
        ([] : List Order) ++ [⟨OrderKind.stopMarket, "B", -5, 200 * 0.95⟩] ∧
      (executeSecondOrderTrade ⟨[], [], []⟩ "B" "SHORT" "r" 0.7 200 5 0).orders =
        ([] : List Order) ++ [⟨OrderKind.stopMarket, "B", 5, 200 * 1.05⟩] :=
  C3_stop_only ⟨[], [], []⟩ "B" "r" 0.7 200 5 0 (by simp) (by simp)

/-- Claim C4, counterexample: in the §8 fallback scenario (primary X up,
supplier A, competitor B, collaborator unavailable), the graph-only
path executes two trades — not zero. -/
theorem C4_counterexample : c4Result.invested.length = 2 := by
  have hlook : c4Graph.lookup "X" = some [("suppliers", ["A"]), ("competitors", ["B"])] := rfl
  have hsup : getCat [("suppliers", ["A"]), ("competitors", ["B"])] "suppliers" = ["A"] := rfl
  have hcomp : getCat [("suppliers", ["A"]), ("competitors", ["B"])] "competitors" = ["B"] := rfl
  have hmv : (0 : ℚ) < 0.06 := by norm_num
  simp [c4Result, triggerSecondOrderTrades, hlook, hsup, hcomp, hmv,
    executeSecondOrderTrade, updatePos]

/-- Claim C4 (amended): when the causal-mapping collaborator is
unavailable the graph-only path trades directly from the graph without
building AffectedEntity records and without any confidence > 0.6
filter: for a positive primary move on X it opens a LONG on supplier A
with hardcoded confidence 0.7 and a SHORT on competitor B with
hardcoded confidence 0.5 (each with a stop order), so two trades
result in the scenario. -/
theorem C4_fallback_trades :
    c4Result.invested = ["B", "A"] ∧
      c4Result.second_order_positions =
        [("A", ⟨0, "LONG", "X" ++ " rally benefits supplier", 0.7⟩),
         ("B", ⟨0, "SHORT", "X" ++ " rally hurts competitor", 0.5⟩)] ∧
      c4Result.orders =
        [⟨OrderKind.stopMarket, "A", -10, 100 * 0.95⟩,
         ⟨OrderKind.stopMarket, "B", 10, 100 * 1.05⟩] := by
  have hlook : c4Graph.lookup "X" = some [("suppliers", ["A"]), ("competitors", ["B"])] := rfl
  have hsup : getCat [("suppliers", ["A"]), ("competitors", ["B"])] "suppliers" = ["A"] := rfl
  have hcomp : getCat [("suppliers", ["A"]), ("competitors", ["B"])] "competitors" = ["B"] := rfl
  have hmv : (0 : ℚ) < 0.06 := by norm_num
  simp [c4Result, triggerSecondOrderTrades, hlook, hsup, hcomp, hmv,
    executeSecondOrderTrade, updatePos]

/-- Claim C5, counterexample: for a ticker whose intraday return is 6%
and whose five-day return is 12%, one evaluation cycle produces both
the intraday and the multi-day event — the multi-day event is not
suppressed, and two events fire for the same ticker in the same
cycle. -/
theorem C5_counterexample :
    cycleEvents ["AAPL"] [("AAPL", 0.06)] histC5 =
      [("AAPL", EventKind.intraday), ("AAPL", EventKind.multiDay)] := by
  norm_num [cycleEvents, intradayFired, multiDayFired, fiveDayQualifies, histC5,
    List.lookup, List.getLast?, abs_of_pos]

/-- Claim C5 (amended): there is no tie-break between the two detection
rules: they run independently, and whenever both thresholds are
exceeded for a tracked ticker in the same evaluation cycle, both the
intraday and the multi-day event fire for that ticker (each triggering
its own second-order analysis). -/
theorem C5_no_tiebreak (movers : List String) (data : List (String × ℚ))
    (hist : String → List ℚ) (sym : String) (r : ℚ)
    (hm : sym ∈ movers) (hd : data.lookup sym = some r) (hr : (0.05 : ℚ) < |r|)
    (hq : fiveDayQualifies (hist sym) = true) :
    (sym, EventKind.intraday) ∈ cycleEvents movers data hist ∧
      (sym, EventKind.multiDay) ∈ cycleEvents movers data hist := by
  constructor
  · apply List.mem_append_left
    rw [intradayFired]
    refine List.mem_map.mpr ⟨sym, List.mem_filter.mpr ⟨hm, ?_⟩, rfl⟩
    simp only [hd, decide_eq_true_eq]
    exact hr
  · apply List.mem_append_right
    rw [multiDayFired]
    have hne : (hist sym).isEmpty = false := by
      cases hh : hist sym with
      | nil => rw [hh] at hq; simp [fiveDayQualifies] at hq
      | cons a l => rfl
    rw [if_neg ?_]
    · exact List.mem_map.mpr ⟨sym, List.mem_filter.mpr ⟨hm, hq⟩, rfl⟩
    · intro hall
      have hval := List.all_eq_true.mp hall sym hm
      rw [hne] at hval
      cases hval

/-- Claim C5 witness: AAPL with a 6% intraday return and a 12% five-day
return fires both events in the same cycle. -/
theorem C5_no_tiebreak_witness :
    ("AAPL", EventKind.intraday) ∈ cycleEvents ["AAPL"] [("AAPL", 0.06)] histC5 ∧
      ("AAPL", EventKind.multiDay) ∈ cycleEvents ["AAPL"] [("AAPL", 0.06)] histC5 :=
  C5_no_tiebreak ["AAPL"] [("AAPL", 0.06)] histC5 "AAPL" 0.06 (by simp)
    (by simp [List.lookup]) (by norm_num [abs_of_pos])
    (by norm_num [histC5, fiveDayQualifies, List.getLast?, abs_of_pos])

/-- Claim C6, code-bug evidence: a cached entry that is exactly one day
old (86400 seconds, far beyond the 5-minute freshness window) is served
from the cache without a new external call and without being evicted,
because the source tests `timedelta.seconds` — the age modulo 24 hours
— instead of the total age. -/
theorem C6_cache_wraparound :
    queryWithCache c6Cache "claude_k" 86400 "fresh" = ("stale", c6Cache) := rfl

/-- Claim C7: the Signal Generator returns at most 10 signals, in
descending `size_multiplier` order, and the sort is stable: for every
key value, the signals carrying it appear in the same order as in the
candidate (input category-then-ticker) sequence. -/
theorem C7_ranking (m : List (String × List AffectedEntity)) :
    (generate_trade_signals m).length ≤ 10 ∧
      (generate_trade_signals m).Pairwise
        (fun a b => b.size_multiplier ≤ a.size_multiplier) ∧
      ∀ q : ℚ, (generate_trade_signals m).filter (fun s => decide (s.size_multiplier = q)) <+:
        (signalCandidates m).filter (fun s => decide (s.size_multiplier = q)) := by
  refine ⟨?_, ?_, ?_⟩
  · simp only [generate_trade_signals]
    exact List.length_take_le 10 _
  · simp only [generate_trade_signals]
    exact List.Pairwise.sublist (List.take_sublist 10 _) (pairwise_sortDesc _)
  · intro q
    simp only [generate_trade_signals]
    have hp := filter_take_leading (fun s => decide (s.size_multiplier = q))
      (sortDesc (signalCandidates m)) 10
    rwa [filter_sortDesc] at hp

/-- Claim C8: the invested-position count never exceeds the cap of 10
across any sequence of trade attempts, and an attempt for a ticker
already invested or with the cap reached is a no-op. -/
theorem C8_position_cap (s : AlgoState) (calls : List TradeCall)
    (h : s.invested.length ≤ 10) :
    ((calls.foldl applyCall s).invested.length ≤ 10) ∧
      ∀ (sym d r : String) (conf p q : ℚ) (n : ℕ),
        sym ∈ s.invested ∨ 10 ≤ s.invested.length →
          executeSecondOrderTrade s sym d r conf p q n = s := by
  refine ⟨foldl_applyCall_length calls s h, ?_⟩
  intro sym d r conf p q n hcase
  rcases hcase with hmem | hcap
  · exact execute_noop_mem s sym d r conf p q n hmem
  · exact execute_noop_cap s sym d r conf p q n hcap

/-- Claim C8 witness: a portfolio at the cap refuses a further trade. -/
theorem C8_position_cap_witness :
    ((([⟨"P11", "LONG", "r", 0.7, 100, 10, 0⟩] : List TradeCall).foldl applyCall
        fullPortfolio).invested.length ≤ 10) ∧
      ∀ (sym d r : String) (conf p q : ℚ) (n : ℕ),
        sym ∈ fullPortfolio.invested ∨ 10 ≤ fullPortfolio.invested.length →
          executeSecondOrderTrade fullPortfolio sym d r conf p q n = fullPortfolio :=
  C8_position_cap fullPortfolio [⟨"P11", "LONG", "r", 0.7, 100, 10, 0⟩] (by decide)

/-- Claim C9: the §8 scenario entity (ticker C, positive, magnitude
0.9, confidence 0.85, lag 2) yields exactly one BUY signal with
strategy DIRECT_EQUITY, stop 0.05, target 0.10 and size multiplier
0.765 (values as exact rationals). -/
theorem C9_scenario :
    generate_trade_signals [("supply_chain", [entityC])] =
      [⟨"C", "BUY", "DIRECT_EQUITY", 0.765, 2, 0.05, 0.1, "r"⟩] := by
  norm_num [generate_trade_signals, sortDesc, signalCandidates, insertDesc, mkSignal,
    determine_strategy, entityC]

/-- Claim C10: the entry-capacity guard counts every invested holding
of the whole portfolio: even when fewer than 10 tracked second-order
positions are open, a new second-order trade is refused once the total
invested-holding count reaches `max_positions`. -/
theorem C10_whole_portfolio_guard (s : AlgoState) (sym d r : String) (conf p q : ℚ)
    (n : ℕ) (_hpos : s.second_order_positions.length < 10)
    (hinv : 10 ≤ s.invested.length) :
    executeSecondOrderTrade s sym d r conf p q n = s :=
  execute_noop_cap s sym d r conf p q n hinv

/-- Claim C10 witness: ten invested holdings, none of them tracked as
second-order positions, still block a new second-order trade. -/
theorem C10_whole_portfolio_guard_witness :
    executeSecondOrderTrade fullPortfolio "P11" "LONG" "r" 0.7 100 10 0 = fullPortfolio :=
  C10_whole_portfolio_guard fullPortfolio "P11" "LONG" "r" 0.7 100 10 0 (by decide)
    (by decide)

end SecondOrder
